import Mathlib

/-!
# Verification of the Cog stage-0 bootstrap compiler (src/bootstrap/main.c)

A shallow embedding of the front end of the Cog bootstrap compiler:
the type system (`type_le`, `type_eq`, sizes and alignment), the symbol
table (`enter_scope`, `find_sym`, `add_sym`, `add_func`, `add_const`,
`add_local`), the typed-expression builder (`try_coerce`, `check_type`,
`unify_types`, `build_binary_expr`), the constant folder (`const_eval`),
the call-argument collection loop of `p_expr`, and the temp-stack
bookkeeping of the expression code generator (`emit_push`, `emit_pop`,
`emit_expr`, `emit_lvalue`).

Modelling conventions, used throughout:
* C `int` becomes `Int` (no arithmetic in the embedded code overflows
  32 bits on the inputs the compiler accepts).
* Functions that call `error_at`/`exit(1)` become `Except String`
  (carrying the message without the `line:col:` prefix, which is pure
  diagnostics bookkeeping) or `Option` for the emitter; C `assert`
  failures are modelled as errors as well.
* Source positions (`Pos`) are dropped: they feed only diagnostics.
* C's in-place node rewrites (`*expr_p = ...`) become functions that
  return the new node.
* Heap pointers disappear; struct types carry an `id : Nat` so that the
  C pointer-identity comparison of `type_eq` remains expressible.
-/

namespace Cog

/-- C `align_up` (main.c:35-37).  C integer division truncates toward
zero, hence `Int.tdiv`. -/
def align_up (size align : Int) : Int :=
  Int.tdiv (size + align - 1) align * align

/-- C `ilog2` (main.c:39-46).  The shift `n >>= 1` executes only while
`n > 1`, where C's arithmetic right shift coincides with `Int` division
by 2. -/
def ilog2 (n : Int) : Int :=
  if n > 1 then 1 + ilog2 (n / 2) else 0
termination_by n.toNat
decreasing_by omega

/-! ## Type system -/

/-- C `TypeKind` (main.c:72-79). -/
inductive TypeKind where
  | void
  | bool
  | int
  | ptr
  | arr
  | strct
deriving DecidableEq, Repr

/-- C `struct Type` (main.c:81-96).  The payload of each variant is the
set of fields of the C struct that the compiler writes for that kind:
`size` for Int, `base` for Ptr, `base`/`len` for Arr, and the name,
field list (name, type, offset), unpadded size and an identity tag for
Struct.  The `id` stands in for the C object identity that `type_eq`
compares with `a == b`. -/
inductive Ty where
  | void
  | bool
  | int (size : Int)
  | ptr (base : Ty)
  | arr (base : Ty) (len : Int)
  | strct (name : String) (fields : List (String × Ty × Int)) (unpadded_size : Int) (id : Nat)

/-- The `kind` discriminant of a `Ty`. -/
def Ty.kind : Ty → TypeKind
  | .void => .void
  | .bool => .bool
  | .int _ => .int
  | .ptr _ => .ptr
  | .arr _ _ => .arr
  | .strct _ _ _ _ => .strct

/-- The C `size` field: set only by `mk_int_type`; calloc-zero (0) for
every other kind. -/
def Ty.size : Ty → Int
  | .int s => s
  | _ => 0

/-- The C `base` field: set by `mk_ptr_type`/`mk_arr_type`; NULL for
other kinds (modelled as `.void`, and never read behind a kind guard
that does not ensure it is set). -/
def Ty.base : Ty → Ty
  | .ptr b => b
  | .arr b _ => b
  | _ => .void

/-- C `type_align` (main.c:133-147). -/
def type_align : Ty → Int
  | .void => -1
  | .bool => 1
  | .int s => s
  | .ptr _ => 8
  | .arr b _ => type_align b
  | .strct _ _ _ _ => 8

/-- C `type_size` (main.c:149-163).  For `Arr`, `type_align(type)` on
the array itself equals `type_align` of the base (main.c:143), written
directly. -/
def type_size : Ty → Int
  | .void => -1
  | .bool => 1
  | .int s => s
  | .ptr _ => 8
  | .arr b n => align_up (type_size b) (type_align b) * n
  | .strct _ fields unpadded _ =>
      if fields.length = 0 then -1 else align_up unpadded 8

/-- C `is_scalar` (main.c:165-167). -/
def is_scalar (t : Ty) : Bool :=
  t.kind == TypeKind.bool || t.kind == TypeKind.int || t.kind == TypeKind.ptr

/-- C `type_eq` (main.c:169-181).  Structs compare by object identity
(`a == b` on pointers), modelled by the `id` tag. -/
def type_eq : Ty → Ty → Bool
  | .void, .void => true
  | .bool, .bool => true
  | .int a, .int b => a == b
  | .ptr a, .ptr b => type_eq a b
  | .arr a n, .arr b m => n == m && type_eq a b
  | .strct _ _ _ i, .strct _ _ _ j => i == j
  | _, _ => false

/-- C `type_le` (main.c:183-192): subtyping for implicit conversions.
Note the pointer case tests `t1->base->kind == Type_Void`, i.e. the
*source* must be `*Void`. -/
def type_le (t1 t2 : Ty) : Bool :=
  if is_scalar t1 && (t2.kind == TypeKind.bool) then true
  else if t1.kind == TypeKind.int && t2.kind == TypeKind.int then
    decide (t1.size ≤ t2.size)
  else if t1.kind == TypeKind.ptr && t2.kind == TypeKind.ptr then
    t1.base.kind == TypeKind.void
  else false

/-- C `pretty_type` (main.c:221-243), used to build the
`Type mismatch` diagnostic of `check_type`. -/
def pretty_type : Ty → String
  | .void => "Void"
  | .bool => "Bool"
  | .int s => "Int" ++ toString (s * 8)
  | .ptr b => "*" ++ pretty_type b
  | .arr b n => "[" ++ pretty_type b ++ "; " ++ toString n ++ "]"
  | .strct name _ _ _ => name

/-! ## Codegen constants (main.c:247-250) and symbol-table bounds -/

def FRAME_LOCALS_SIZE : Int := 128
def FRAME_TEMP_SIZE : Int := 512
def FRAME_ARGS_SIZE : Int := 64
def FRAME_SIZE : Int := FRAME_LOCALS_SIZE + FRAME_TEMP_SIZE + FRAME_ARGS_SIZE

def MAX_PARAMS : Nat := 8
def MAX_SCOPES : Nat := 16

/-! ## Symbol table -/

/-- C `SymKind` (main.c:257-263). -/
inductive SymKind where
  | lcl
  | glbl
  | cnst
  | func
  | ty
deriving DecidableEq, Repr

/-- C `struct Symbol` (main.c:265-282).  `param_count` is the length of
`param_types` (C stores the count beside a fixed-size array); the two
parallel arrays `param_names`/`param_types` are two lists. -/
structure Symbol where
  kind : SymKind
  name : String
  is_extern : Bool
  type : Ty
  frame_offset : Int
  value : Int
  param_names : List String
  param_types : List Ty
  is_variadic : Bool
  locals_size : Int
  defined : Bool

/-- C `mk_sym` (main.c:319-324): `calloc` zeroes every field; the NULL
`type` pointer is modelled as `.void` and is never read before the
parser stores a real type. -/
def mk_sym (kind : SymKind) (name : String) : Symbol :=
  ⟨kind, name, false, .void, 0, 0, [], [], false, 0, false⟩

/-- C `func_eq` (main.c:371-380): same parameter count, variadic flag,
return type and pairwise-equal parameter types.  (The C `assert` that
the first argument is a `Sym_Func` is a caller invariant.) -/
def func_eq (a b : Symbol) : Bool :=
  a.param_types.length == b.param_types.length &&
  a.is_variadic == b.is_variadic &&
  type_eq a.type b.type &&
  (a.param_types.zip b.param_types).all (fun p => type_eq p.1 p.2)

/-- The process-wide symbol-table state: `sym_table`/`sym_count` as a
list (index 0 = oldest symbol), the `first_sym` array of
`MAX_SCOPES + 1` entries, and `scope_depth` (main.c:284-288). -/
structure SymTab where
  syms : List Symbol
  first_sym : List Nat
  scope_depth : Nat

/-- The state at program start: empty table, `first_sym` all zero,
depth 0 (the global scope). -/
def init_tab : SymTab :=
  ⟨[], List.replicate (MAX_SCOPES + 1) 0, 0⟩

/-- C `enter_scope` (main.c:290-297). -/
def enter_scope (st : SymTab) : Except String SymTab :=
  if st.scope_depth + 1 = MAX_SCOPES then
    .error "Maximum scope depth reached"
  else
    .ok ⟨st.syms, st.first_sym.set (st.scope_depth + 1) st.syms.length,
         st.scope_depth + 1⟩

/-- C `leave_scope` (main.c:299-302): truncate the table to the scope's
first index. -/
def leave_scope (st : SymTab) : SymTab :=
  ⟨st.syms.take (st.first_sym.getD st.scope_depth 0), st.first_sym,
   st.scope_depth - 1⟩

/-- C `find_sym_within` (main.c:304-313): scan from the newest symbol
down to `first_sym[depth]`. -/
def find_sym_within (st : SymTab) (name : String) (depth : Nat) : Option Symbol :=
  ((st.syms.drop (st.first_sym.getD depth 0)).reverse).find? (fun s => s.name == name)

/-- C `find_sym` (main.c:315-317). -/
def find_sym (st : SymTab) (name : String) : Option Symbol :=
  find_sym_within st name 0

/-- C `add_sym` (main.c:326-334): duplicate check within the current
scope only, then append. -/
def add_sym (st : SymTab) (sym : Symbol) : Except String SymTab :=
  if (find_sym_within st sym.name st.scope_depth).isSome then
    .error ("Symbol '" ++ sym.name ++ "' already defined")
  else
    .ok ⟨st.syms ++ [sym], st.first_sym, st.scope_depth⟩

/-- The constant symbol built by C `add_const` (main.c:364-369): kind
`Sym_Const`, type `mk_int_type(8)` (Int64), the folded value. -/
def const_sym (name : String) (value : Int) : Symbol :=
  { mk_sym SymKind.cnst name with type := Ty.int 8, value := value }

/-- C `add_const` (main.c:364-369), used both by `const` declarations
(main.c:1442-1447) and by `enum` members (main.c:1464-1478). -/
def add_const (st : SymTab) (name : String) (value : Int) : Except String SymTab :=
  add_sym st (const_sym name value)

/-- C `add_func` (main.c:382-387): merge with a matching earlier
function symbol unless both are defined; otherwise `add_sym` (which
raises the duplicate-symbol error when the name is already bound in the
current scope). -/
def add_func (st : SymTab) (func : Symbol) : Except String SymTab :=
  match find_sym st func.name with
  | some existing =>
      if existing.kind = SymKind.func ∧ func_eq func existing = true ∧
          ¬(existing.defined = true ∧ func.defined = true) then
        .ok st
      else
        add_sym st func
  | none => add_sym st func

/-- C `add_local` (main.c:342-355).  The C code mutates
`current_func->locals_size`; modelled by returning the updated function
symbol beside the table. -/
def add_local (st : SymTab) (cf : Symbol) (name : String) (ty : Ty) :
    Except String (SymTab × Symbol) :=
  let offset := align_up (cf.locals_size + type_size ty) (type_align ty)
  if offset > FRAME_LOCALS_SIZE then
    .error "Ran out of local variable space"
  else
    let cf1 := { cf with locals_size := offset }
    let lcl := { mk_sym SymKind.lcl name with type := ty, frame_offset := offset }
    (add_sym st lcl).map (fun st1 => (st1, cf1))

/-- C `p_param` (main.c:1342-1357): bounds and scalarity checks, then
record the parameter in the function symbol and add it as a local. -/
def p_param (st : SymTab) (cf : Symbol) (pname : String) (pty : Ty) :
    Except String (SymTab × Symbol) :=
  if cf.param_types.length = MAX_PARAMS then
    .error "Too many parameters."
  else if is_scalar pty = false then
    .error "Invalid parameter type."
  else
    let cf1 := { cf with param_names := cf.param_names ++ [pname],
                         param_types := cf.param_types ++ [pty] }
    add_local st cf1 pname pty

/-- The return-type validity check of C `p_return_type`
(main.c:1359-1368). -/
def p_return_type_check (ty : Ty) : Except String Unit :=
  if ty.kind ≠ TypeKind.void ∧ is_scalar ty = false then
    .error "Illegal return type."
  else
    .ok ()

/-- The prefix of the `func` branch of C `p_decl` (main.c:1390-1413)
for a non-extern function with a body, up to and including the
`add_func` that runs *before* the body is parsed: make the function
symbol, enter its scope, add the parameters, record variadic flag and
return type, mark it defined, and `add_func` it. -/
def p_decl_func_prelude (st : SymTab) (name : String) ( is_extern : Bool)
    (params : List (String × Ty)) (variadic : Bool) (ret : Ty) :
    Except String (SymTab × Symbol) := do
  let cf0 := { mk_sym SymKind.func name with is_extern := is_extern }
  let st1 ← enter_scope st
  let (st2, cf1) ← params.foldlM
    (fun (p : SymTab × Symbol) pr => p_param p.1 p.2 pr.1 pr.2) (st1, cf0)
  let _ ← p_return_type_check ret
  let cf2 := { cf1 with is_variadic := variadic, type := ret, defined := true }
  let st3 ← add_func st2 cf2
  pure (st3, cf2)

/-! ## Abstract syntax tree -/

/-- C `struct Expr` (main.c:391-405).  The C `args` array of
`MAX_PARAMS + 1` slots together with `arg_count` is modelled as a
single list holding exactly the populated slots (the remaining slots
are NULL and are never read).  Kinds are the C string tags. -/
inductive Expr where
  | mk (kind : String) (type : Ty) (int_value : Int) (str_value : String)
       (sym : Option Symbol) (args : List Expr) (field_index : Int)

def Expr.kind : Expr → String
  | .mk k _ _ _ _ _ _ => k

def Expr.type : Expr → Ty
  | .mk _ t _ _ _ _ _ => t

def Expr.int_value : Expr → Int
  | .mk _ _ v _ _ _ _ => v

def Expr.sym : Expr → Option Symbol
  | .mk _ _ _ _ s _ _ => s

def Expr.args : Expr → List Expr
  | .mk _ _ _ _ _ a _ => a

theorem expr_sizeOf_pos (e : Expr) : 0 < sizeOf e := by
  cases e; simp_arith

/-- C `is_lvalue` (main.c:407-410). -/
def is_lvalue (e : Expr) : Bool :=
  e.kind == "<var>" || e.kind == "*_" || e.kind == "_[_]" || e.kind == "_._"

/-- C `mk_expr` (main.c:412-418) without the dropped position; calloc
zeroes the remaining fields. -/
def mk_expr (kind : String) (ty : Ty) : Expr :=
  .mk kind ty 0 "" none [] 0

/-- C `mk_expr_3` (main.c:420-426). -/
def mk_expr_3 (kind : String) (e1 e2 e3 : Expr) (ty : Ty) : Expr :=
  .mk kind ty 0 "" none [e1, e2, e3] 0

/-- C `mk_expr_2` (main.c:428-430): `mk_expr_3` with a NULL third slot,
i.e. a two-element argument list. -/
def mk_expr_2 (kind : String) (e1 e2 : Expr) (ty : Ty) : Expr :=
  .mk kind ty 0 "" none [e1, e2] 0

/-- C `mk_expr_1` (main.c:432-434). -/
def mk_expr_1 (kind : String) (e1 : Expr) (ty : Ty) : Expr :=
  .mk kind ty 0 "" none [e1] 0

/-- C `try_coerce` (main.c:436-447).  The C code rewrites `*expr_p` in
place; the model returns the (possibly wrapped) expression.  Note that
the narrowing branch reads `int_value` of *any* expression (0 unless
the node is a literal), compares the bit length against `target->size`
(which is in bytes), and wraps in an `as` cast node. -/
def try_coerce (e : Expr) (target : Ty) : Expr :=
  if type_eq e.type target then e
  else if type_le e.type target then mk_expr_1 "as" e target
  else if e.type.kind = TypeKind.int ∧ target.kind = TypeKind.int then
    if ilog2 e.int_value + 1 < target.size then mk_expr_1 "as" e target
    else e
  else e

/-- C `check_type` (main.c:449-465): coerce, accept any pointer where
`*Void` is expected, otherwise require `type_eq`. -/
def check_type (e : Expr) (expected : Ty) : Except String Expr :=
  let e1 := try_coerce e expected
  if expected.kind = TypeKind.ptr ∧ expected.base.kind = TypeKind.void ∧
      e1.type.kind = TypeKind.ptr then
    .ok e1
  else if type_eq e1.type expected then
    .ok e1
  else
    .error ("Type mismatch: " ++ pretty_type e1.type ++ " != " ++ pretty_type expected)

/-- C `check_type_bool` (main.c:467-469). -/
def check_type_bool (e : Expr) : Except String Expr :=
  check_type e Ty.bool

/-- C `check_type_int` (main.c:471-475). -/
def check_type_int (e : Expr) : Except String Unit :=
  if e.type.kind ≠ TypeKind.int then .error "Expected integer."
  else .ok ()

/-- C `unify_types` (main.c:477-481): coerce right-to-left, then
left-to-right against the already-updated right type, then check. -/
def unify_types (lhs rhs : Expr) : Except String (Expr × Expr) := do
  let rhs1 := try_coerce rhs lhs.type
  let lhs1 := try_coerce lhs rhs1.type
  let rhs2 ← check_type rhs1 lhs1.type
  pure (lhs1, rhs2)

/-- C `build_binary_expr` (main.c:1024-1065).  Branches in source
order: assignments (with the non-scalar `<memcpy>` rewrite), the
short-circuit desugaring to `_?_:_`, the comparison branch — which by a
quirk of the source also routes `_<<_` and returns type Bool — and the
arithmetic branch for everything else. -/
def build_binary_expr (lhs : Expr) (op : String) (rhs : Expr) : Except String Expr :=
  if op = "_=_" ∨ op = "_+=_" ∨ op = "_-=_" then
    if is_lvalue lhs = false then
      .error "Expression is not assignable."
    else do
      if op ≠ "_=_" then
        let _ ← check_type_int lhs
      let rhs1 ← check_type rhs lhs.type
      if is_scalar lhs.type = false then
        if is_lvalue rhs1 = false then
          .error "assertion failed: is_lvalue(rhs)"
        else
          let lhs1 := mk_expr_1 "&_" lhs (Ty.ptr lhs.type)
          let rhs2 := mk_expr_1 "&_" rhs1 (Ty.ptr rhs1.type)
          pure (mk_expr_2 "<memcpy>" lhs1 rhs2 Ty.void)
      else
        pure (mk_expr_2 op lhs rhs1 lhs.type)
  else if op = "_&&_" ∨ op = "_||_" then do
    let lhs1 ← check_type_bool lhs
    let rhs1 ← check_type_bool rhs
    if op = "_&&_" then
      let e := Expr.mk "<int>" Ty.bool 0 "" none [] 0
      pure (mk_expr_3 "_?_:_" lhs1 rhs1 e rhs1.type)
    else
      let e := Expr.mk "<int>" Ty.bool 1 "" none [] 0
      pure (mk_expr_3 "_?_:_" lhs1 e rhs1 rhs1.type)
  else if op = "_==_" ∨ op = "_!=_" ∨ op = "_<_" ∨ op = "_<=_" ∨
      op = "_>_" ∨ op = "_>=_" ∨ op = "_<<_" then do
    let (lhs1, rhs1) ← unify_types lhs rhs
    if is_scalar lhs1.type = false then
      .error "Type is not comparable."
    else
      pure (mk_expr_2 op lhs1 rhs1 Ty.bool)
  else do
    let _ ← check_type_int lhs
    let _ ← check_type_int rhs
    let (lhs1, rhs1) ← unify_types lhs rhs
    pure (mk_expr_2 op lhs1 rhs1 lhs1.type)

/-! ## Constant folder -/

/-- C `const_eval` (main.c:1240-1250): `<int>` returns the stored
value, `-_` negates, `_+_` adds; any other node kind is the fatal
`Constant evaluation failed.` diagnostic.  (The C code indexes
`args[0]`/`args[1]` unconditionally; parser-built nodes of these kinds
always have them, so a missing child also maps to the error.) -/
def const_eval (e : Expr) : Except String Int :=
  match e with
  | .mk "<int>" _ iv _ _ _ _ => .ok iv
  | .mk "-_" _ _ _ _ (a0 :: _) _ => (const_eval a0).map (fun v => -v)
  | .mk "_+_" _ _ _ _ (a0 :: a1 :: _) _ => do
      let v0 ← const_eval a0
      let v1 ← const_eval a1
      pure (v0 + v1)
  | _ => .error "Constant evaluation failed."
termination_by sizeOf e

/-- The expressions the constant folder accepts: trees built from
`<int>` literals, unary negation and binary addition. -/
def good_const (e : Expr) : Bool :=
  match e with
  | .mk "<int>" _ _ _ _ _ _ => true
  | .mk "-_" _ _ _ _ (a0 :: _) _ => good_const a0
  | .mk "_+_" _ _ _ _ (a0 :: a1 :: _) _ => good_const a0 && good_const a1
  | _ => false
termination_by sizeOf e

/-! ## Parser fragments -/

/-- The argument-collection loop of the call branch of C `p_expr`
(main.c:1106-1114): after each parsed argument, raise
`Too many arguments provided.` when the list already holds
`MAX_PARAMS` arguments, else append.  `parsed` is the stream of
argument expressions the recursive `p_expr` calls return; `acc` plays
`lhs->args`/`lhs->arg_count`. -/
def p_call_args_loop (acc : List Expr) (parsed : List Expr) :
    Except String (List Expr) :=
  match parsed with
  | [] => .ok acc
  | a :: rest =>
      if acc.length = MAX_PARAMS then .error "Too many arguments provided."
      else p_call_args_loop (acc ++ [a]) rest

/-- C `p_expr` call collection starts with an empty argument list
(main.c:1104-1114). -/
def p_call_args (parsed : List Expr) : Except String (List Expr) :=
  p_call_args_loop [] parsed

/-- The `Sym_Const` branch of C `p_expr` (main.c:1135-1137): a use of a
constant symbol materializes as an `<int>` literal node of the symbol's
type carrying the stored value. -/
def const_use (sym : Symbol) : Expr :=
  Expr.mk "<int>" sym.type sym.value "" none [] 0

/-! ## Code generator: temp-stack bookkeeping

The emitter functions are modelled by their effect on the global
`temp_stack_top` (main.c:631).  Emitted text, the label counter and the
target registers do not interact with the temp stack and are dropped;
`Option Int` maps the entry `temp_stack_top` to the exit value, with
`none` for the fatal overflow diagnostic and for C `assert` failures
(which abort emission). -/

/-- C `emit_push` (main.c:659-666): fatal
`Ran out of temporary space` past `FRAME_TEMP_SIZE`, else grow by 8. -/
def emit_push (top : Int) : Option Int :=
  if top + 8 > FRAME_TEMP_SIZE then none else some (top + 8)

/-- C `emit_pop` (main.c:668-671): shrink by 8, no underflow check. -/
def emit_pop (top : Int) : Int := top - 8

/-- The argument-popping loop of the call branch (main.c:796-800):
`param_count` pops. -/
def emit_pop_loop : Nat → Int → Int
  | 0, top => top
  | n + 1, top => emit_pop_loop n (emit_pop top)

/-- C `emit_arg_push` (main.c:673-677): stores to the outgoing-argument
area; advances `arg_offset`, asserting it stays within
`FRAME_ARGS_SIZE`.  The temp stack is untouched. -/
def emit_arg_push (arg_offset : Int) : Option Int :=
  if arg_offset + 8 ≤ FRAME_ARGS_SIZE then some (arg_offset + 8) else none

/-- C `strx` (main.c:633-643): store mnemonic by size, `assert(false)`
otherwise. -/
def strx (ty : Ty) : Option String :=
  if type_size ty = 1 then some "strb w"
  else if type_size ty = 2 then some "strh w"
  else if type_size ty = 4 then some "str w"
  else if type_size ty = 8 then some "str x"
  else none

/-- C `ldrx` (main.c:645-657). -/
def ldrx (ty : Ty) : Option String :=
  if ty.kind = TypeKind.bool then some "ldrb w"
  else if ty.kind = TypeKind.int ∧ ty.size = 1 then some "ldrsb x"
  else if ty.kind = TypeKind.int ∧ ty.size = 2 then some "ldrsh x"
  else if ty.kind = TypeKind.int ∧ ty.size = 4 then some "ldrsw x"
  else if type_size ty = 8 then some "ldr x"
  else none

/-- C `emit_sign_extend` (main.c:679-689): asserts the source type is
scalar; emits `sxt*` or `mov`, no temp-stack effect. -/
def emit_sign_extend (source : Ty) : Option Unit :=
  if is_scalar source then some () else none

/-- The C idiom `e->sym->kind == k` behind a non-NULL symbol; a NULL
symbol on a `<var>` node cannot be produced by the parser. -/
def sym_kind_is (sym : Option Symbol) (k : SymKind) : Bool :=
  match sym with
  | some s => s.kind == k
  | none => false

/-!
The five emission routines recurse into each other along the expression
tree; C bounds that recursion by the tree itself.  The embedding makes
the bound explicit with a `fuel` argument that every internal call
decrements: a `some` result is a completed run of the C code, while
`none` covers both the fatal-diagnostic paths and an exhausted bound.
Each routine's C body is a non-recursive `_body` definition taking the
routines it calls as parameters; the fuel-indexed knot is tied below.
-/

/-- C `emit_expr` (main.c:755-902), as its effect on `temp_stack_top`.
Branches in source order; `emit_binary`/`emit_cmp` both reduce to
`emit_operands` (main.c:709-718).  `eE`, `eL`, `eO`, `eOL`, `eA` stand
for the recursive calls to `emit_expr`, `emit_lvalue`, `emit_operands`,
`emit_operands_lvalue` and the argument loop. -/
def emit_expr_body (eE eL : Expr → Int → Option Int)
    (eO eOL : Expr → Expr → Int → Option Int)
    (eA : Nat → Bool → List Expr → Nat → Int → Int → Option Int)
    (e : Expr) (top : Int) : Option Int :=
  if is_lvalue e then
    match eL e top with
    | some t1 => match ldrx e.type with
                 | some _ => some t1
                 | none => none
    | none => none
  else if e.kind = "<int>" then some top
  else if e.kind = "<str>" then some top
  else if e.kind = "_(_)" then
    match e.sym with
    | none => none
    | some s =>
      match eA s.param_types.length s.is_variadic e.args 0 0 top with
      | none => none
      | some t1 =>
        if e.type.kind = TypeKind.void then
          some (emit_pop_loop s.param_types.length t1)
        else match emit_sign_extend e.type with
             | some _ => some (emit_pop_loop s.param_types.length t1)
             | none => none
  else if e.kind = "&_" then
    match e.args with
    | a0 :: _ => eL a0 top
    | [] => none
  else if e.kind = "!_" ∨ e.kind = "~_" ∨ e.kind = "-_" then
    match e.args with
    | a0 :: _ => eE a0 top
    | [] => none
  else if e.kind = "_|_" ∨ e.kind = "_^_" ∨ e.kind = "_&_" ∨ e.kind = "_==_" ∨
      e.kind = "_!=_" ∨ e.kind = "_<_" ∨ e.kind = "_<=_" ∨ e.kind = "_>_" ∨
      e.kind = "_>=_" ∨ e.kind = "_<<_" ∨ e.kind = "_>>_" ∨ e.kind = "_+_" ∨
      e.kind = "_-_" ∨ e.kind = "_*_" ∨ e.kind = "_/_" ∨ e.kind = "_%_" then
    match e.args with
    | a0 :: a1 :: _ => eO a0 a1 top
    | _ => none
  else if e.kind = "_?_:_" then
    match e.args with
    | a0 :: a1 :: a2 :: _ =>
      match eE a0 top with
      | none => none
      | some t1 =>
        match eE a1 t1 with
        | none => none
        | some t2 => eE a2 t2
    | _ => none
  else if e.kind = "_=_" ∨ e.kind = "_+=_" ∨ e.kind = "_-=_" then
    match e.args with
    | a0 :: a1 :: _ =>
      match eOL a0 a1 top with
      | none => none
      | some t1 =>
        if e.kind = "_+=_" ∨ e.kind = "_-=_" then
          match ldrx a0.type with
          | none => none
          | some _ => match strx a0.type with
                      | some _ => some t1
                      | none => none
        else
          match strx a0.type with
          | some _ => some t1
          | none => none
    | _ => none
  else if e.kind = "<memcpy>" then
    match e.args with
    | a0 :: a1 :: _ =>
      if a0.kind = "&_" ∧ a1.kind = "&_" then
        match eO a0 a1 top with
        | some t1 => match a0.type with
                     | .ptr _ => some t1
                     | _ => none
        | none => none
      else none
    | _ => none
  else if e.kind = "as" then
    match e.args with
    | a0 :: _ =>
      if is_scalar e.type = true ∧ is_scalar a0.type = true then
        eE a0 top
      else none
    | [] => none
  else none

/-- C `emit_lvalue` (main.c:720-753): address computation; only the
`_[_]` branch touches the temp stack (through `emit_operands`). -/
def emit_lvalue_body (eE eL : Expr → Int → Option Int)
    (eO eOL : Expr → Expr → Int → Option Int)
    (e : Expr) (top : Int) : Option Int :=
  if e.kind = "<var>" ∧ sym_kind_is e.sym SymKind.lcl = true then some top
  else if e.kind = "<var>" ∧ sym_kind_is e.sym SymKind.glbl = true then some top
  else if e.kind = "_._" then
    match e.args with
    | a0 :: _ => eL a0 top
    | [] => none
  else if e.kind = "*_" then
    match e.args with
    | a0 :: _ => eE a0 top
    | [] => none
  else if e.kind = "_[_]" then
    match e.args with
    | a0 :: a1 :: _ =>
      if a0.type.kind = TypeKind.ptr then eO a0 a1 top
      else eOL a0 a1 top
    | _ => none
  else none

/-- C `emit_operands` (main.c:695-700): left operand, push, right
operand, pop. -/
def emit_operands_body (eE : Expr → Int → Option Int)
    (a0 a1 : Expr) (top : Int) : Option Int :=
  match eE a0 top with
  | none => none
  | some t1 =>
    match emit_push t1 with
    | none => none
    | some t2 =>
      match eE a1 t2 with
      | none => none
      | some t3 => some (emit_pop t3)

/-- C `emit_operands_lvalue` (main.c:702-707): like `emit_operands`
with the left operand's address. -/
def emit_operands_lvalue_body (eE eL : Expr → Int → Option Int)
    (a0 a1 : Expr) (top : Int) : Option Int :=
  match eL a0 top with
  | none => none
  | some t1 =>
    match emit_push t1 with
    | none => none
    | some t2 =>
      match eE a1 t2 with
      | none => none
      | some t3 => some (emit_pop t3)

/-- The argument-emission loop of the call branch (main.c:783-794):
positional arguments (index below `param_count`) are pushed on the temp
stack; later arguments require the variadic flag (C `assert`) and go to
the outgoing-argument area. -/
def emit_args_body (eE : Expr → Int → Option Int)
    (eA : Nat → Bool → List Expr → Nat → Int → Int → Option Int)
    (pc : Nat) (variadic : Bool) (l : List Expr) (idx : Nat)
    (arg_offset : Int) (top : Int) : Option Int :=
  match l with
  | [] => some top
  | a :: rest =>
    match eE a top with
    | none => none
    | some t1 =>
      if idx >= pc then
        if variadic then
          match emit_arg_push arg_offset with
          | some off1 => eA pc variadic rest (idx + 1) off1 t1
          | none => none
        else none
      else
        match emit_push t1 with
        | some t2 => eA pc variadic rest (idx + 1) arg_offset t2
        | none => none

mutual

/-- Fuel-indexed `emit_expr`; see `emit_expr_body`. -/
def emit_expr : Nat → Expr → Int → Option Int
  | 0, _, _ => none
  | n + 1, e, top =>
    emit_expr_body (emit_expr n) (emit_lvalue n) (emit_operands n)
      (emit_operands_lvalue n) (emit_args n) e top

/-- Fuel-indexed `emit_lvalue`; see `emit_lvalue_body`. -/
def emit_lvalue : Nat → Expr → Int → Option Int
  | 0, _, _ => none
  | n + 1, e, top =>
    emit_lvalue_body (emit_expr n) (emit_lvalue n) (emit_operands n)
      (emit_operands_lvalue n) e top

/-- Fuel-indexed `emit_operands`; see `emit_operands_body`. -/
def emit_operands : Nat → Expr → Expr → Int → Option Int
  | 0, _, _, _ => none
  | n + 1, a0, a1, top => emit_operands_body (emit_expr n) a0 a1 top

/-- Fuel-indexed `emit_operands_lvalue`; see `emit_operands_lvalue_body`. -/
def emit_operands_lvalue : Nat → Expr → Expr → Int → Option Int
  | 0, _, _, _ => none
  | n + 1, a0, a1, top =>
    emit_operands_lvalue_body (emit_expr n) (emit_lvalue n) a0 a1 top

/-- Fuel-indexed argument loop; see `emit_args_body`. -/
def emit_args : Nat → Nat → Bool → List Expr → Nat → Int → Int → Option Int
  | 0, _, _, _, _, _, _ => none
  | n + 1, pc, variadic, l, idx, arg_offset, top =>
    emit_args_body (emit_expr n) (emit_args n) pc variadic l idx arg_offset top

end

mutual

/-- Call-arity well-formedness, established by the parser
(main.c:1115-1119): every call node carries its function symbol and at
least `param_count` arguments. -/
def wf_calls (e : Expr) : Bool :=
  match e with
  | .mk kind _ _ _ sym args _ =>
    (if kind = "_(_)" then
       match sym with
       | some s => decide (s.param_types.length ≤ args.length)
       | none => false
     else true) && wf_calls_list args

def wf_calls_list : List Expr → Bool
  | [] => true
  | a :: rest => wf_calls a && wf_calls_list rest

end

/-! # Theorems -/

/-! ## C1: direction of pointer subtyping in `type_le` -/

/-- C1 counterexample: the claim asserts `type_le(Ptr(T), Ptr(Void))`
for every `T`; at `T = Int64` the code returns `false` (main.c:189-190
tests the *source* base for `Void`). -/
theorem C1_counterexample :
    type_le (Ty.ptr (Ty.int 8)) (Ty.ptr Ty.void) = false := rfl

/-- C1 (amended): `type_le` on pointers accepts exactly the opposite
direction of the claim: `Ptr(Void) ≤ Ptr(T)` holds for every `T`, and
`Ptr(T) ≤ Ptr(Void)` holds only when `T` is `Void` itself. -/
theorem C1_type_le_ptr (t : Ty) :
    type_le (Ty.ptr Ty.void) (Ty.ptr t) = true ∧
    (type_le (Ty.ptr t) (Ty.ptr Ty.void) = true ↔ t = Ty.void) := by
  constructor
  · rfl
  · cases t <;> simp [type_le, is_scalar, Ty.kind, Ty.base]

/-! ## C2: integer-literal narrowing in `try_coerce` -/

/-- C2 counterexample: for the Int64 literal `3` against target Int32,
the claim predicts a re-tagged `<int>` literal with no cast node; the
code (main.c:441-446) instead wraps the node in an `as` cast. -/
theorem C2_counterexample :
    (try_coerce (Expr.mk "<int>" (Ty.int 8) 3 "" none [] 0) (Ty.int 4)).kind
      = "as" ∧ "as" ≠ "<int>" := by
  have h3 : ilog2 3 = 1 := by
    rw [ilog2]; norm_num
    rw [ilog2]; norm_num
  refine ⟨?_, by decide⟩
  simp [try_coerce, type_eq, type_le, is_scalar, Ty.kind, Ty.size, Expr.type,
        Expr.int_value, h3, mk_expr_1, Expr.kind]

/-- C2 (amended): narrowing an Int-typed expression `e` to a strictly
narrower Int target wraps `e` in an `as` cast node (the child — and
hence the stored value — is untouched) exactly when
`ilog2(e.int_value) + 1 < target.size`, the bit length of the stored
`int_value` compared against the target size *in bytes*; the node's
kind is never consulted, so this applies to literals and non-literals
alike.  Otherwise the expression is returned unchanged. -/
theorem C2_try_coerce_narrowing (e : Expr) (n m : Int)
    (he : e.type = Ty.int n) (hm : m < n) :
    (ilog2 e.int_value + 1 < m →
      try_coerce e (Ty.int m) = mk_expr_1 "as" e (Ty.int m)) ∧
    (¬ ilog2 e.int_value + 1 < m → try_coerce e (Ty.int m) = e) := by
  have he1 : type_eq e.type (Ty.int m) = false := by
    rw [he]; simp [type_eq]; omega
  have he2 : type_le e.type (Ty.int m) = false := by
    rw [he]; simp [type_le, is_scalar, Ty.kind, Ty.size]; omega
  have he3 : e.type.kind = TypeKind.int := by rw [he]; rfl
  have hk : (Ty.int m).kind = TypeKind.int := rfl
  have hs : (Ty.int m).size = m := rfl
  constructor
  · intro hfit
    simp [try_coerce, he1, he2, he3, hk, hs, hfit]
  · intro hfit
    simp [try_coerce, he1, he2, he3, hk, hs, hfit]

/-- C2 witness: the Int64 literal `5` fits the (byte-valued) bound of
Int32, and the narrowing produces the cast wrapper. -/
theorem C2_witness :
    try_coerce (Expr.mk "<int>" (Ty.int 8) 5 "" none [] 0) (Ty.int 4)
      = mk_expr_1 "as" (Expr.mk "<int>" (Ty.int 8) 5 "" none [] 0) (Ty.int 4) := by
  have h5 : ilog2 5 = 2 := by
    rw [ilog2]; norm_num
    rw [ilog2]; norm_num
    rw [ilog2]; norm_num
  exact (C2_try_coerce_narrowing (Expr.mk "<int>" (Ty.int 8) 5 "" none [] 0)
    8 4 rfl (by norm_num)).1 (by simp [Expr.int_value, h5])

/-! ## C3: function signature merge at the top level -/

/-- C3: at the top level (`scope_depth = 0`), re-declaring a function
name is a merge — `add_func` returns the table unchanged — exactly when
the new symbol's signature (`func_eq`: parameter types, parameter
count, variadic flag, return type) matches the found symbol and the two
are not both defined; in every other case, in particular a double
definition, `add_func` raises the duplicate-symbol diagnostic. -/
theorem C3_add_func_merge (st : SymTab) (f1 f2 : Symbol) (n : String)
    (h0 : st.scope_depth = 0) (h1 : find_sym st n = some f1)
    (h2 : f1.kind = SymKind.func) (h3 : f2.name = n) :
    (add_func st f2 = .ok st ↔
      (func_eq f2 f1 = true ∧ ¬(f1.defined = true ∧ f2.defined = true))) ∧
    (¬(func_eq f2 f1 = true ∧ ¬(f1.defined = true ∧ f2.defined = true)) →
      add_func st f2 = .error ("Symbol '" ++ n ++ "' already defined")) := by
  have hfind : find_sym st f2.name = some f1 := by rw [h3]; exact h1
  have hsub : find_sym_within st f2.name st.scope_depth = some f1 := by
    rw [h0]; exact hfind
  have hsub' : find_sym_within st n st.scope_depth = some f1 := by
    rw [← h3]; exact hsub
  have hadd : add_sym st f2 = .error ("Symbol '" ++ n ++ "' already defined") := by
    simp only [add_sym, h3, hsub', Option.isSome_some, if_true]
  have hmain : add_func st f2 =
      if func_eq f2 f1 = true ∧ ¬(f1.defined = true ∧ f2.defined = true) then
        Except.ok st
      else Except.error ("Symbol '" ++ n ++ "' already defined") := by
    by_cases hc : func_eq f2 f1 = true ∧ ¬(f1.defined = true ∧ f2.defined = true)
    · conv_rhs => rw [if_pos hc]
      simp only [add_func, hfind]
      rw [if_pos ⟨h2, hc.1, hc.2⟩]
    · conv_rhs => rw [if_neg hc]
      simp only [add_func, hfind]
      rw [if_neg (fun hx => hc ⟨hx.2.1, hx.2.2⟩), hadd]
  constructor
  · rw [hmain]
    by_cases hc : func_eq f2 f1 = true ∧ ¬(f1.defined = true ∧ f2.defined = true) <;>
      simp [hc]
  · intro hc
    rw [hmain, if_neg hc]

/-- C3 witness: a prototype `func f(): Int;` followed by a matching
defined declaration merges (left), while a second defined declaration
against an already defined one is the duplicate error (right). -/
theorem C3_witness :
    add_func ⟨[⟨SymKind.func, "f", false, Ty.int 8, 0, 0, [], [], false, 0, false⟩],
              List.replicate 17 0, 0⟩
        ⟨SymKind.func, "f", false, Ty.int 8, 0, 0, [], [], false, 0, true⟩
      = .ok ⟨[⟨SymKind.func, "f", false, Ty.int 8, 0, 0, [], [], false, 0, false⟩],
             List.replicate 17 0, 0⟩ ∧
    add_func ⟨[⟨SymKind.func, "g", false, Ty.int 8, 0, 0, [], [], false, 0, true⟩],
              List.replicate 17 0, 0⟩
        ⟨SymKind.func, "g", false, Ty.int 8, 0, 0, [], [], false, 0, true⟩
      = .error "Symbol 'g' already defined" := by
  constructor
  · exact (C3_add_func_merge
      ⟨[⟨SymKind.func, "f", false, Ty.int 8, 0, 0, [], [], false, 0, false⟩],
       List.replicate 17 0, 0⟩
      ⟨SymKind.func, "f", false, Ty.int 8, 0, 0, [], [], false, 0, false⟩
      ⟨SymKind.func, "f", false, Ty.int 8, 0, 0, [], [], false, 0, true⟩
      "f" rfl (by rfl) rfl rfl).1.mpr ⟨by decide, by decide⟩
  · exact (C3_add_func_merge
      ⟨[⟨SymKind.func, "g", false, Ty.int 8, 0, 0, [], [], false, 0, true⟩],
       List.replicate 17 0, 0⟩
      ⟨SymKind.func, "g", false, Ty.int 8, 0, 0, [], [], false, 0, true⟩
      ⟨SymKind.func, "g", false, Ty.int 8, 0, 0, [], [], false, 0, true⟩
      "g" rfl (by rfl) rfl rfl).2 (by decide)

/-! ## C4: maximum scope nesting -/

/-- `n` successive `enter_scope` calls from the initial state: the
scope nesting of an input program whose innermost point sits under `n`
scopes below the global scope (`n + 1` scopes in total). -/
def enter_n (n : Nat) (st : SymTab) : Except String SymTab :=
  match n with
  | 0 => .ok st
  | k + 1 =>
    match enter_n k st with
    | .ok st1 => enter_scope st1
    | .error msg => .error msg

theorem enter_n_ok (n : Nat) (h : n + 1 ≤ MAX_SCOPES) :
    ∃ fs, enter_n n init_tab = .ok ⟨[], fs, n⟩ := by
  induction n with
  | zero => exact ⟨List.replicate (MAX_SCOPES + 1) 0, rfl⟩
  | succ k ih =>
    obtain ⟨fs, hfs⟩ := ih (by omega)
    refine ⟨fs.set (k + 1) 0, ?_⟩
    rw [enter_n, hfs]
    show enter_scope ⟨[], fs, k⟩ = _
    rw [enter_scope]
    rw [if_neg (show ¬(k + 1 = MAX_SCOPES) by simp [MAX_SCOPES] at h ⊢; omega)]
    rfl

theorem enter_n_err (k : Nat) :
    enter_n (16 + k) init_tab = .error "Maximum scope depth reached" := by
  induction k with
  | zero =>
    obtain ⟨fs, hfs⟩ := enter_n_ok 15 (by simp [MAX_SCOPES])
    show enter_n (15 + 1) init_tab = _
    rw [enter_n, hfs]
    show enter_scope ⟨[], fs, 15⟩ = _
    rw [enter_scope]
    rw [if_pos (by simp [MAX_SCOPES])]
  | succ j ih =>
    show enter_n (16 + j + 1) init_tab = _
    rw [enter_n, ih]

/-- C4: with the global scope counted, at most `MAX_SCOPES = 16` scopes
can be simultaneously live: a program nested `n` scopes below the
global scope is accepted by the chain of `enter_scope` calls iff
`n + 1 ≤ 16` (the reachable `scope_depth` values are `0..15`), and the
entry that would create a 17th scope is the fatal
`Maximum scope depth reached`. -/
theorem C4_scope_depth_bound (n : Nat) :
    (n + 1 ≤ MAX_SCOPES →
      ∃ st, enter_n n init_tab = .ok st ∧ st.scope_depth = n) ∧
    (MAX_SCOPES < n + 1 →
      enter_n n init_tab = .error "Maximum scope depth reached") := by
  constructor
  · intro h
    obtain ⟨fs, hfs⟩ := enter_n_ok n h
    exact ⟨_, hfs, rfl⟩
  · intro h
    have : n = 16 + (n - 16) := by
      simp [MAX_SCOPES] at h; omega
    rw [this]
    exact enter_n_err _

/-- C4 witness: 15 nested scopes below the global one (16 in total) are
accepted; the 16th nested entry (a 17th scope) is the fatal error. -/
theorem C4_witness :
    (∃ st, enter_n 15 init_tab = .ok st ∧ st.scope_depth = 15) ∧
    enter_n 16 init_tab = .error "Maximum scope depth reached" :=
  ⟨(C4_scope_depth_bound 15).1 (by norm_num [MAX_SCOPES]),
   (C4_scope_depth_bound 16).2 (by norm_num [MAX_SCOPES])⟩

/-! ## C5: `<<` is routed through the comparison builder -/

/-- `try_coerce` between Int-kinded source and target yields an
Int-kinded expression. -/
theorem try_coerce_int_kind (e : Expr) (target : Ty)
    (hs : e.type.kind = TypeKind.int) (ht : target.kind = TypeKind.int) :
    (try_coerce e target).type.kind = TypeKind.int := by
  rw [try_coerce]
  split_ifs
  · exact hs
  · exact ht
  · exact ht
  · exact hs
  · exact hs

/-- A successful `check_type` against a non-pointer expected type
means the result's type passed `type_eq`. -/
theorem check_type_eq_of_ok (e : Expr) (t : Ty) (e2 : Expr)
    (hp : t.kind ≠ TypeKind.ptr) (h : check_type e t = .ok e2) :
    type_eq e2.type t = true := by
  simp only [check_type] at h
  split_ifs at h with h1 h2
  · exact absurd h1.1 hp
  · injection h with h3
    rw [← h3]
    exact h2

theorem check_type_int_ok (e : Expr) (h : check_type_int e = .ok ()) :
    e.type.kind = TypeKind.int := by
  by_cases hk : e.type.kind = TypeKind.int
  · exact hk
  · rw [check_type_int, if_pos hk] at h
    exact absurd h (by simp)

/-- C5: a well-typed `a << b` is built by the comparison branch of
`build_binary_expr` (main.c:1052-1058) and therefore has result type
Bool, while `a >> b` goes through the arithmetic branch
(main.c:1059-1064) and carries the unified Int operand type. -/
theorem C5_shift_routing :
    (∀ lhs rhs e, build_binary_expr lhs "_<<_" rhs = .ok e → e.type = Ty.bool) ∧
    (∀ lhs rhs e, build_binary_expr lhs "_>>_" rhs = .ok e →
      ∃ l r, e.args = [l, r] ∧ e.type = l.type ∧
        e.type.kind = TypeKind.int ∧ type_eq r.type l.type = true) := by
  constructor
  · intro lhs rhs e h
    rw [build_binary_expr] at h
    norm_num at h
    cases hu : unify_types lhs rhs with
    | error m => rw [hu] at h; simp [Bind.bind, Except.bind] at h
    | ok p =>
      obtain ⟨l1, r1⟩ := p
      rw [hu] at h
      simp only [Bind.bind, Except.bind] at h
      by_cases hs : is_scalar l1.type = false
      · rw [if_pos hs] at h
        simp at h
      · rw [if_neg hs] at h
        injection h with h2
        rw [← h2]
        rfl
  · intro lhs rhs e h
    rw [build_binary_expr] at h
    norm_num at h
    cases hcl : check_type_int lhs with
    | error m => rw [hcl] at h; simp [Bind.bind, Except.bind] at h
    | ok u =>
      obtain ⟨⟩ := u
      rw [hcl] at h
      simp only [Bind.bind, Except.bind] at h
      cases hcr : check_type_int rhs with
      | error m => rw [hcr] at h; simp [Bind.bind, Except.bind] at h
      | ok u2 =>
        obtain ⟨⟩ := u2
        rw [hcr] at h
        simp only [Bind.bind, Except.bind] at h
        have hl : lhs.type.kind = TypeKind.int := check_type_int_ok lhs hcl
        have hr : rhs.type.kind = TypeKind.int := check_type_int_ok rhs hcr
        rw [unify_types] at h
        simp only [Bind.bind, Except.bind] at h
        cases hk : check_type (try_coerce rhs lhs.type)
            (try_coerce lhs (try_coerce rhs lhs.type).type).type with
        | error m => rw [hk] at h; simp at h
        | ok r2 =>
          rw [hk] at h
          have hr1 : (try_coerce rhs lhs.type).type.kind = TypeKind.int :=
            try_coerce_int_kind rhs lhs.type hr hl
          have hl1 : (try_coerce lhs (try_coerce rhs lhs.type).type).type.kind
              = TypeKind.int :=
            try_coerce_int_kind lhs _ hl hr1
          have hteq : type_eq r2.type
              (try_coerce lhs (try_coerce rhs lhs.type).type).type = true :=
            check_type_eq_of_ok _ _ _ (by rw [hl1]; simp) hk
          simp only [pure, Except.pure] at h
          injection h with h2
          refine ⟨try_coerce lhs (try_coerce rhs lhs.type).type, r2, ?_, ?_, ?_, ?_⟩
          · rw [← h2]; rfl
          · rw [← h2]; rfl
          · rw [← h2]; exact hl1
          · exact hteq

/-- C5 witness: `1 << 1` gets type Bool; `1 >> 1` keeps Int64. -/
theorem C5_witness :
    (mk_expr_2 "_<<_" (Expr.mk "<int>" (Ty.int 8) 1 "" none [] 0)
       (Expr.mk "<int>" (Ty.int 8) 1 "" none [] 0) Ty.bool).type = Ty.bool ∧
    (∃ l r, (mk_expr_2 "_>>_" (Expr.mk "<int>" (Ty.int 8) 1 "" none [] 0)
       (Expr.mk "<int>" (Ty.int 8) 1 "" none [] 0) (Ty.int 8)).args = [l, r] ∧
      (mk_expr_2 "_>>_" (Expr.mk "<int>" (Ty.int 8) 1 "" none [] 0)
       (Expr.mk "<int>" (Ty.int 8) 1 "" none [] 0) (Ty.int 8)).type = l.type ∧
      (mk_expr_2 "_>>_" (Expr.mk "<int>" (Ty.int 8) 1 "" none [] 0)
       (Expr.mk "<int>" (Ty.int 8) 1 "" none [] 0) (Ty.int 8)).type.kind
        = TypeKind.int ∧
      type_eq r.type l.type = true) :=
  ⟨C5_shift_routing.1 (Expr.mk "<int>" (Ty.int 8) 1 "" none [] 0)
      (Expr.mk "<int>" (Ty.int 8) 1 "" none [] 0) _ rfl,
   C5_shift_routing.2 (Expr.mk "<int>" (Ty.int 8) 1 "" none [] 0)
      (Expr.mk "<int>" (Ty.int 8) 1 "" none [] 0) _ rfl⟩

/-! ## C6: the constant folder -/

theorem const_eval_cases (e : Expr) :
    (good_const e = true → ∃ v, const_eval e = .ok v) ∧
    (good_const e = false → const_eval e = .error "Constant evaluation failed.") := by
  induction e using good_const.induct with
  | case1 ty iv sv sym args fi =>
    refine ⟨fun _ => ⟨iv, const_eval.eq_1 ty iv sv sym args fi⟩, fun h => ?_⟩
    rw [good_const.eq_1] at h
    exact absurd h (by simp)
  | case2 ty iv sv sym a0 tail fi ih =>
    constructor
    · intro h
      rw [good_const.eq_2] at h
      obtain ⟨v, hv⟩ := ih.1 h
      exact ⟨-v, by rw [const_eval.eq_2, hv]; rfl⟩
    · intro h
      rw [good_const.eq_2] at h
      rw [const_eval.eq_2, ih.2 h]
      rfl
  | case3 ty iv sv sym a0 a1 tail fi ih0 ih1 =>
    constructor
    · intro h
      rw [good_const.eq_3] at h
      simp only [Bool.and_eq_true] at h
      obtain ⟨v0, hv0⟩ := ih0.1 h.1
      obtain ⟨v1, hv1⟩ := ih1.1 h.2
      refine ⟨v0 + v1, ?_⟩
      rw [const_eval.eq_3]
      simp [hv0, hv1, Bind.bind, Except.bind]
      rfl
    · intro h
      rw [good_const.eq_3] at h
      rw [const_eval.eq_3]
      by_cases h0 : good_const a0 = true
      · have h1 : good_const a1 = false := by
          cases hb : good_const a1
          · rfl
          · rw [h0, hb] at h; simp at h
        obtain ⟨v0, hv0⟩ := ih0.1 h0
        simp [hv0, ih1.2 h1, Bind.bind, Except.bind]
      · have h0f : good_const a0 = false := by
          cases hb : good_const a0
          · rfl
          · exact absurd hb h0
        simp [ih0.2 h0f, Bind.bind, Except.bind]
  | case4 x hx1 hx2 hx3 =>
    have hg : good_const x = false := good_const.eq_4 x hx1 hx2 hx3
    have hc : const_eval x = .error "Constant evaluation failed." :=
      const_eval.eq_4 x hx1 hx2 hx3
    exact ⟨fun h => by rw [hg] at h; exact absurd h (by simp), fun _ => hc⟩

/-- C6: the constant folder evaluates exactly the node kinds `<int>`
(the stored value), `-_` (negation) and `_+_` (sum); an expression
containing any other node kind in an evaluated position fails with
`Constant evaluation failed.` — `good_const` is the closure of the
three kinds. -/
theorem C6_const_eval :
    (∀ ty iv sv sym args fi,
      const_eval (Expr.mk "<int>" ty iv sv sym args fi) = .ok iv) ∧
    (∀ a rest ty iv sv sym fi va, const_eval a = .ok va →
      const_eval (Expr.mk "-_" ty iv sv sym (a :: rest) fi) = .ok (-va)) ∧
    (∀ a b rest ty iv sv sym fi va vb,
      const_eval a = .ok va → const_eval b = .ok vb →
      const_eval (Expr.mk "_+_" ty iv sv sym (a :: b :: rest) fi) = .ok (va + vb)) ∧
    (∀ e, good_const e = true → ∃ v, const_eval e = .ok v) ∧
    (∀ e, good_const e = false →
      const_eval e = .error "Constant evaluation failed.") := by
  refine ⟨?_, ?_, ?_, fun e => (const_eval_cases e).1, fun e => (const_eval_cases e).2⟩
  · intro ty iv sv sym args fi
    exact const_eval.eq_1 ty iv sv sym args fi
  · intro a rest ty iv sv sym fi va hva
    rw [const_eval.eq_2, hva]
    rfl
  · intro a b rest ty iv sv sym fi va vb hva hvb
    rw [const_eval.eq_3]
    simp [hva, hvb, Bind.bind, Except.bind]
    rfl

/-- C6 witness: `3 + -1` folds to 2, and a `_*_` node fails. -/
theorem C6_witness :
    const_eval (Expr.mk "_+_" (Ty.int 8) 0 "" none
      [Expr.mk "<int>" (Ty.int 8) 3 "" none [] 0,
       Expr.mk "-_" (Ty.int 8) 0 "" none
         [Expr.mk "<int>" (Ty.int 8) 1 "" none [] 0] 0] 0) = .ok 2 ∧
    const_eval (Expr.mk "_*_" (Ty.int 8) 0 "" none
      [Expr.mk "<int>" (Ty.int 8) 3 "" none [] 0,
       Expr.mk "<int>" (Ty.int 8) 1 "" none [] 0] 0)
      = .error "Constant evaluation failed." := by
  constructor
  · have h1 := C6_const_eval.1 (Ty.int 8) 3 "" none ([] : List Expr) 0
    have h2 := C6_const_eval.1 (Ty.int 8) 1 "" none ([] : List Expr) 0
    have h3 := C6_const_eval.2.1 (Expr.mk "<int>" (Ty.int 8) 1 "" none [] 0)
      [] (Ty.int 8) 0 "" none 0 1 h2
    exact C6_const_eval.2.2.1 _ _ [] (Ty.int 8) 0 "" none 0 3 (-1) h1 h3
  · exact C6_const_eval.2.2.2.2 _ (by simp [good_const])

/-! ## C8: at most 8 call arguments, variadic or not -/

theorem p_call_args_loop_ok (parsed : List Expr) :
    ∀ acc : List Expr, acc.length + parsed.length ≤ MAX_PARAMS →
      p_call_args_loop acc parsed = .ok (acc ++ parsed) := by
  induction parsed with
  | nil => intro acc _; simp [p_call_args_loop]
  | cons a rest ih =>
    intro acc h
    rw [p_call_args_loop]
    rw [if_neg (by simp [MAX_PARAMS] at h ⊢; omega)]
    rw [ih (acc ++ [a]) (by simp at h ⊢; omega)]
    simp

theorem p_call_args_loop_err (parsed : List Expr) :
    ∀ acc : List Expr, acc.length ≤ MAX_PARAMS →
      MAX_PARAMS < acc.length + parsed.length →
      p_call_args_loop acc parsed = .error "Too many arguments provided." := by
  induction parsed with
  | nil => intro acc h1 h2; simp at h2; omega
  | cons a rest ih =>
    intro acc h1 h2
    rw [p_call_args_loop]
    by_cases hc : acc.length = MAX_PARAMS
    · rw [if_pos hc]
    · rw [if_neg hc]
      exact ih (acc ++ [a]) (by simp; omega) (by simp at h2 ⊢; omega)

/-- C8: the call-argument loop accepts exactly the argument lists of
length at most `MAX_PARAMS = 8` — the variadic flag is never consulted
— and fails with `Too many arguments provided.` beyond that; hence a
call to a variadic function with `pc` declared parameters carries at
most `8 - pc` variadic arguments. -/
theorem C8_call_args_capped (parsed : List Expr) :
    (p_call_args parsed = .ok parsed ↔ parsed.length ≤ MAX_PARAMS) ∧
    (MAX_PARAMS < parsed.length →
      p_call_args parsed = .error "Too many arguments provided.") ∧
    (∀ pc : Nat, p_call_args parsed = .ok parsed →
      parsed.length - pc ≤ MAX_PARAMS - pc) := by
  have herr : MAX_PARAMS < parsed.length →
      p_call_args parsed = .error "Too many arguments provided." := by
    intro h
    exact p_call_args_loop_err parsed [] (by simp [MAX_PARAMS]) (by simpa)
  have hlen : p_call_args parsed = .ok parsed → parsed.length ≤ MAX_PARAMS := by
    intro hok
    by_contra hlt
    rw [herr (by omega)] at hok
    exact absurd hok (by simp)
  refine ⟨⟨hlen, ?_⟩, herr, ?_⟩
  · intro h
    have := p_call_args_loop_ok parsed [] (by simpa)
    simpa [p_call_args] using this
  · intro pc hok
    have := hlen hok
    omega

/-- C8 witness: nine arguments fail, eight are returned unchanged. -/
theorem C8_witness :
    p_call_args (List.replicate 9 (Expr.mk "<int>" (Ty.int 8) 1 "" none [] 0))
      = .error "Too many arguments provided." ∧
    p_call_args (List.replicate 8 (Expr.mk "<int>" (Ty.int 8) 1 "" none [] 0))
      = .ok (List.replicate 8 (Expr.mk "<int>" (Ty.int 8) 1 "" none [] 0)) := by
  constructor
  · exact (C8_call_args_capped _).2.1 (by simp [MAX_PARAMS])
  · exact (C8_call_args_capped _).1.mpr (by simp [MAX_PARAMS])

/-! ## C7: temp-stack balance of the emitter -/

theorem emit_pop_loop_eq (n : Nat) (top : Int) :
    emit_pop_loop n top = top - 8 * n := by
  induction n generalizing top with
  | zero => simp [emit_pop_loop]
  | succ k ih =>
    rw [emit_pop_loop, ih, emit_pop]
    push_cast
    ring

theorem emit_push_some (t t2 : Int) (h : emit_push t = some t2) : t2 = t + 8 := by
  rw [emit_push] at h
  split_ifs at h
  injection h with h2
  omega

theorem wf_list_of (k : String) (ty : Ty) (iv : Int) (sv : String)
    (sym : Option Symbol) (args : List Expr) (fi : Int)
    (h : wf_calls (.mk k ty iv sv sym args fi) = true) :
    wf_calls_list args = true := by
  rw [wf_calls.eq_def] at h
  simp only [Bool.and_eq_true] at h
  exact h.2

theorem wf_list_head (a : Expr) (l : List Expr)
    (h : wf_calls_list (a :: l) = true) : wf_calls a = true := by
  rw [wf_calls_list.eq_def] at h
  simp only [Bool.and_eq_true] at h
  exact h.1

theorem wf_list_tail (a : Expr) (l : List Expr)
    (h : wf_calls_list (a :: l) = true) : wf_calls_list l = true := by
  rw [wf_calls_list.eq_def] at h
  simp only [Bool.and_eq_true] at h
  exact h.2

theorem wf_call_len (ty : Ty) (iv : Int) (sv : String) (s : Symbol)
    (args : List Expr) (fi : Int)
    (h : wf_calls (.mk "_(_)" ty iv sv (some s) args fi) = true) :
    s.param_types.length ≤ args.length := by
  rw [wf_calls.eq_def] at h
  simp only [Bool.and_eq_true] at h
  have h1 := h.1
  simp at h1
  exact h1

theorem wf_args_of (e : Expr) (h : wf_calls e = true) :
    wf_calls_list e.args = true := by
  obtain ⟨k, ty, iv, sv, sym, args, fi⟩ := e
  exact wf_list_of k ty iv sv sym args fi h

theorem wf_call_sig (e : Expr) (s : Symbol) (hk : e.kind = "_(_)")
    (hs : e.sym = some s) (h : wf_calls e = true) :
    s.param_types.length ≤ e.args.length := by
  obtain ⟨k, ty, iv, sv, sym, args, fi⟩ := e
  simp only [Expr.kind] at hk
  simp only [Expr.sym] at hs
  subst hk
  subst hs
  exact wf_call_len ty iv sv s args fi h

set_option maxHeartbeats 1000000 in
/-- Push/pop balance of the emitter, proved for the five mutually
recursive emission functions at once by induction on the fuel: on any
successful run the exit `temp_stack_top` equals the entry value (for
the argument loop, the entry value plus the pending pushes of the
positional arguments, which the call node's pop loop removes again). -/
theorem emit_balance (fuel : Nat) :
    (∀ (e : Expr) (top : Int), wf_calls e = true →
      ∀ t', emit_expr fuel e top = some t' → t' = top) ∧
    (∀ (e : Expr) (top : Int), wf_calls e = true →
      ∀ t', emit_lvalue fuel e top = some t' → t' = top) ∧
    (∀ (a0 a1 : Expr) (top : Int), wf_calls a0 = true → wf_calls a1 = true →
      ∀ t', emit_operands fuel a0 a1 top = some t' → t' = top) ∧
    (∀ (a0 a1 : Expr) (top : Int), wf_calls a0 = true → wf_calls a1 = true →
      ∀ t', emit_operands_lvalue fuel a0 a1 top = some t' → t' = top) ∧
    (∀ (pc : Nat) (variadic : Bool) (l : List Expr) (idx : Nat)
        (arg_offset top : Int), wf_calls_list l = true →
      ∀ t', emit_args fuel pc variadic l idx arg_offset top = some t' →
        t' = top + 8 * ((min pc (idx + l.length) - min pc idx : Nat) : Int)) := by
  induction fuel with
  | zero =>
    refine ⟨?_, ?_, ?_, ?_, ?_⟩
    · intro e top _ t' h
      rw [emit_expr] at h
      exact Option.noConfusion h
    · intro e top _ t' h
      rw [emit_lvalue] at h
      exact Option.noConfusion h
    · intro a0 a1 top _ _ t' h
      rw [emit_operands] at h
      exact Option.noConfusion h
    · intro a0 a1 top _ _ t' h
      rw [emit_operands_lvalue] at h
      exact Option.noConfusion h
    · intro pc variadic l idx arg_offset top _ t' h
      rw [emit_args] at h
      exact Option.noConfusion h
  | succ n ih =>
    obtain ⟨ihE, ihL, ihO, ihOL, ihA⟩ := ih
    refine ⟨?_, ?_, ?_, ?_, ?_⟩
    · -- emit_expr
      intro e top hw t' h
      rw [emit_expr, emit_expr_body] at h
      by_cases hc1 : is_lvalue e = true
      · -- lvalue kind: address then load
        rw [if_pos hc1] at h
        split at h
        · rename_i t1 heq
          split at h
          · injection h with h1
            have h2 := ihL e top hw t1 heq
            omega
          · exact Option.noConfusion h
        · exact Option.noConfusion h
      · rw [if_neg hc1] at h
        by_cases hc2 : e.kind = "<int>"
        · rw [if_pos hc2] at h
          injection h with h1
          omega
        · rw [if_neg hc2] at h
          by_cases hc3 : e.kind = "<str>"
          · rw [if_pos hc3] at h
            injection h with h1
            omega
          · rw [if_neg hc3] at h
            by_cases hc4 : e.kind = "_(_)"
            · -- call: pending argument pushes are popped again
              rw [if_pos hc4] at h
              split at h
              · exact Option.noConfusion h
              · rename_i s hs
                split at h
                · exact Option.noConfusion h
                · rename_i t1 heqA
                  have hlen := wf_call_sig e s hc4 hs hw
                  have hargs := ihA s.param_types.length s.is_variadic e.args 0 0
                    top (wf_args_of e hw) t1 heqA
                  by_cases hvd : e.type.kind = TypeKind.void
                  · rw [if_pos hvd] at h
                    injection h with h1
                    rw [emit_pop_loop_eq] at h1
                    omega
                  · rw [if_neg hvd] at h
                    split at h
                    · injection h with h1
                      rw [emit_pop_loop_eq] at h1
                      omega
                    · exact Option.noConfusion h
            · rw [if_neg hc4] at h
              by_cases hc5 : e.kind = "&_"
              · rw [if_pos hc5] at h
                split at h
                · rename_i a0 tail heq
                  have hl := wf_args_of e hw
                  rw [heq] at hl
                  exact ihL a0 top (wf_list_head a0 tail hl) t' h
                · exact Option.noConfusion h
              · rw [if_neg hc5] at h
                by_cases hc6 : e.kind = "!_" ∨ e.kind = "~_" ∨ e.kind = "-_"
                · rw [if_pos hc6] at h
                  split at h
                  · rename_i a0 tail heq
                    have hl := wf_args_of e hw
                    rw [heq] at hl
                    exact ihE a0 top (wf_list_head a0 tail hl) t' h
                  · exact Option.noConfusion h
                · rw [if_neg hc6] at h
                  by_cases hc7 : e.kind = "_|_" ∨ e.kind = "_^_" ∨
                    e.kind = "_&_" ∨ e.kind = "_==_" ∨ e.kind = "_!=_" ∨
                    e.kind = "_<_" ∨ e.kind = "_<=_" ∨ e.kind = "_>_" ∨
                    e.kind = "_>=_" ∨ e.kind = "_<<_" ∨ e.kind = "_>>_" ∨
                    e.kind = "_+_" ∨ e.kind = "_-_" ∨ e.kind = "_*_" ∨
                    e.kind = "_/_" ∨ e.kind = "_%_"
                  · rw [if_pos hc7] at h
                    split at h
                    · rename_i a0 a1 tail heq
                      have hl := wf_args_of e hw
                      rw [heq] at hl
                      exact ihO a0 a1 top (wf_list_head a0 (a1 :: tail) hl)
                        (wf_list_head a1 tail (wf_list_tail a0 (a1 :: tail) hl))
                        t' h
                    · exact Option.noConfusion h
                  · rw [if_neg hc7] at h
                    by_cases hc8 : e.kind = "_?_:_"
                    · rw [if_pos hc8] at h
                      split at h
                      · rename_i a0 a1 a2 tail heq
                        have hl := wf_args_of e hw
                        rw [heq] at hl
                        split at h
                        · exact Option.noConfusion h
                        · rename_i t1 heq1
                          split at h
                          · exact Option.noConfusion h
                          · rename_i t2 heq2
                            have h1 := ihE a0 top
                              (wf_list_head a0 (a1 :: a2 :: tail) hl) t1 heq1
                            have h2 := ihE a1 t1
                              (wf_list_head a1 (a2 :: tail)
                                (wf_list_tail a0 (a1 :: a2 :: tail) hl)) t2 heq2
                            have h3 := ihE a2 t2
                              (wf_list_head a2 tail (wf_list_tail a1 (a2 :: tail)
                                (wf_list_tail a0 (a1 :: a2 :: tail) hl))) t' h
                            omega
                      · exact Option.noConfusion h
                    · rw [if_neg hc8] at h
                      by_cases hc9 : e.kind = "_=_" ∨ e.kind = "_+=_" ∨
                        e.kind = "_-=_"
                      · rw [if_pos hc9] at h
                        split at h
                        · rename_i a0 a1 tail heq
                          have hl := wf_args_of e hw
                          rw [heq] at hl
                          split at h
                          · exact Option.noConfusion h
                          · rename_i t1 heq1
                            have h2 := ihOL a0 a1 top
                              (wf_list_head a0 (a1 :: tail) hl)
                              (wf_list_head a1 tail
                                (wf_list_tail a0 (a1 :: tail) hl)) t1 heq1
                            by_cases hca : e.kind = "_+=_" ∨ e.kind = "_-=_"
                            · -- compound assignment loads the old value
                              rw [if_pos hca] at h
                              split at h
                              · exact Option.noConfusion h
                              · split at h
                                · injection h with h1
                                  omega
                                · exact Option.noConfusion h
                            · -- plain assignment
                              rw [if_neg hca] at h
                              split at h
                              · injection h with h1
                                omega
                              · exact Option.noConfusion h
                        · exact Option.noConfusion h
                      · rw [if_neg hc9] at h
                        by_cases hc10 : e.kind = "<memcpy>"
                        · rw [if_pos hc10] at h
                          split at h
                          · rename_i a0 a1 tail heq
                            have hl := wf_args_of e hw
                            rw [heq] at hl
                            by_cases hmc : a0.kind = "&_" ∧ a1.kind = "&_"
                            · rw [if_pos hmc] at h
                              split at h
                              · rename_i t1 heq1
                                split at h
                                · injection h with h1
                                  have h2 := ihO a0 a1 top
                                    (wf_list_head a0 (a1 :: tail) hl)
                                    (wf_list_head a1 tail
                                      (wf_list_tail a0 (a1 :: tail) hl)) t1 heq1
                                  omega
                                · exact Option.noConfusion h
                              · exact Option.noConfusion h
                            · rw [if_neg hmc] at h
                              exact Option.noConfusion h
                          · exact Option.noConfusion h
                        · rw [if_neg hc10] at h
                          by_cases hc11 : e.kind = "as"
                          · rw [if_pos hc11] at h
                            split at h
                            · rename_i a0 tail heq
                              have hl := wf_args_of e hw
                              rw [heq] at hl
                              by_cases hsc : is_scalar e.type = true ∧
                                is_scalar a0.type = true
                              · rw [if_pos hsc] at h
                                exact ihE a0 top (wf_list_head a0 tail hl) t' h
                              · rw [if_neg hsc] at h
                                exact Option.noConfusion h
                            · exact Option.noConfusion h
                          · rw [if_neg hc11] at h
                            exact Option.noConfusion h
    · -- emit_lvalue
      intro e top hw t' h
      rw [emit_lvalue, emit_lvalue_body] at h
      by_cases hc1 : e.kind = "<var>" ∧ sym_kind_is e.sym SymKind.lcl = true
      · rw [if_pos hc1] at h
        injection h with h1
        omega
      · rw [if_neg hc1] at h
        by_cases hc2 : e.kind = "<var>" ∧ sym_kind_is e.sym SymKind.glbl = true
        · rw [if_pos hc2] at h
          injection h with h1
          omega
        · rw [if_neg hc2] at h
          by_cases hc3 : e.kind = "_._"
          · -- member access
            rw [if_pos hc3] at h
            split at h
            · rename_i a0 tail heq
              have hl := wf_args_of e hw
              rw [heq] at hl
              exact ihL a0 top (wf_list_head a0 tail hl) t' h
            · exact Option.noConfusion h
          · rw [if_neg hc3] at h
            by_cases hc4 : e.kind = "*_"
            · -- dereference
              rw [if_pos hc4] at h
              split at h
              · rename_i a0 tail heq
                have hl := wf_args_of e hw
                rw [heq] at hl
                exact ihE a0 top (wf_list_head a0 tail hl) t' h
              · exact Option.noConfusion h
            · rw [if_neg hc4] at h
              by_cases hc5 : e.kind = "_[_]"
              · -- indexing
                rw [if_pos hc5] at h
                split at h
                · rename_i a0 a1 tail heq
                  have hl := wf_args_of e hw
                  rw [heq] at hl
                  by_cases hp : a0.type.kind = TypeKind.ptr
                  · rw [if_pos hp] at h
                    exact ihO a0 a1 top (wf_list_head a0 (a1 :: tail) hl)
                      (wf_list_head a1 tail (wf_list_tail a0 (a1 :: tail) hl))
                      t' h
                  · rw [if_neg hp] at h
                    exact ihOL a0 a1 top (wf_list_head a0 (a1 :: tail) hl)
                      (wf_list_head a1 tail (wf_list_tail a0 (a1 :: tail) hl))
                      t' h
                · exact Option.noConfusion h
              · rw [if_neg hc5] at h
                exact Option.noConfusion h
    · -- emit_operands
      intro a0 a1 top hw0 hw1 t' h
      rw [emit_operands, emit_operands_body] at h
      split at h
      · exact Option.noConfusion h
      · rename_i t1 heq1
        split at h
        · exact Option.noConfusion h
        · rename_i t2 heq2
          split at h
          · exact Option.noConfusion h
          · rename_i t3 heq3
            injection h with h1
            have h2 := ihE a0 top hw0 t1 heq1
            have h3 := emit_push_some t1 t2 heq2
            have h4 := ihE a1 t2 hw1 t3 heq3
            rw [emit_pop] at h1
            omega
    · -- emit_operands_lvalue
      intro a0 a1 top hw0 hw1 t' h
      rw [emit_operands_lvalue, emit_operands_lvalue_body] at h
      split at h
      · exact Option.noConfusion h
      · rename_i t1 heq1
        split at h
        · exact Option.noConfusion h
        · rename_i t2 heq2
          split at h
          · exact Option.noConfusion h
          · rename_i t3 heq3
            injection h with h1
            have h2 := ihL a0 top hw0 t1 heq1
            have h3 := emit_push_some t1 t2 heq2
            have h4 := ihE a1 t2 hw1 t3 heq3
            rw [emit_pop] at h1
            omega
    · -- emit_args
      intro pc variadic l idx arg_offset top hwl t' h
      cases l with
      | nil =>
        rw [emit_args, emit_args_body] at h
        injection h with h1
        simp only [List.length_nil]
        omega
      | cons a rest =>
        rw [emit_args, emit_args_body] at h
        split at h
        · exact Option.noConfusion h
        · rename_i t1 heq1
          have h1 := ihE a top (wf_list_head a rest hwl) t1 heq1
          by_cases hge : idx >= pc
          · -- beyond the positional parameters
            rw [if_pos hge] at h
            by_cases hv : variadic = true
            · -- variadic: outgoing-argument area, no push
              rw [if_pos hv] at h
              split at h
              · rename_i off1 heqp
                have h2 := ihA pc variadic rest (idx + 1) off1 t1
                  (wf_list_tail a rest hwl) t' h
                simp only [List.length_cons]
                omega
              · exact Option.noConfusion h
            · rw [if_neg hv] at h
              exact Option.noConfusion h
          · -- positional: push on the temp stack
            rw [if_neg hge] at h
            split at h
            · rename_i t2 heqp
              have h2 := emit_push_some t1 t2 heqp
              have h3 := ihA pc variadic rest (idx + 1) arg_offset t2
                (wf_list_tail a rest hwl) t' h
              simp only [List.length_cons]
              omega
            · exact Option.noConfusion h

/-- C7: on every successful emission the temp stack is balanced: if the
call-arity invariant established by the parser holds of `e` and
`emit_expr` completes (any fuel; a completed run is fuel-independent),
the final `temp_stack_top` equals the initial one, so every
`emit_push` is matched by exactly one pop. -/
theorem C7_emit_expr_balanced (fuel : Nat) (e : Expr) (top t' : Int)
    (hw : wf_calls e = true) (h : emit_expr fuel e top = some t') :
    t' = top :=
  (emit_balance fuel).1 e top hw t' h

/-- C7 witness: `1 + 2` emitted from `temp_stack_top = 3` ends at 3. -/
theorem C7_witness : (3 : Int) = 3 :=
  C7_emit_expr_balanced 3
    (Expr.mk "_+_" (Ty.int 8) 0 "" none
      [Expr.mk "<int>" (Ty.int 8) 1 "" none [] 0,
       Expr.mk "<int>" (Ty.int 8) 2 "" none [] 0] 0) 3 3
    (by rw [wf_calls.eq_def]
        simp only [wf_calls_list]
        rw [wf_calls.eq_def]
        rw [wf_calls.eq_def]
        simp [wf_calls_list])
    (by simp [emit_expr, emit_expr_body, emit_operands, emit_operands_body,
              emit_push, emit_pop, is_lvalue, Expr.kind, Expr.args, Expr.type,
              FRAME_TEMP_SIZE])

/-! ## C10: recursion resolves without a forward declaration -/

theorem add_sym_ok (st : SymTab) (s : Symbol) (st' : SymTab)
    (h : add_sym st s = .ok st') :
    st'.syms = st.syms ++ [s] ∧ st'.first_sym = st.first_sym ∧
    st'.scope_depth = st.scope_depth := by
  rw [add_sym] at h
  split_ifs at h
  injection h with h2
  rw [← h2]
  exact ⟨rfl, rfl, rfl⟩

theorem except_map_ok_inv {α β ε : Type} (f : α → β) (x : Except ε α) (y : β)
    (h : Except.map f x = .ok y) : ∃ a, x = .ok a ∧ f a = y := by
  cases x with
  | error e => simp [Except.map] at h
  | ok a => exact ⟨a, rfl, by simpa [Except.map] using h⟩

theorem except_bind_ok_inv {α β ε : Type} (x : Except ε α) (f : α → Except ε β)
    (y : β) (h : x >>= f = .ok y) : ∃ a, x = .ok a ∧ f a = .ok y := by
  cases x with
  | error e => simp [Bind.bind, Except.bind] at h
  | ok a => exact ⟨a, rfl, by simpa [Bind.bind, Except.bind] using h⟩

theorem getD_zero_set_succ (l : List Nat) (i v : Nat) :
    (l.set (i + 1) v).getD 0 0 = l.getD 0 0 := by
  cases l <;> simp [List.set, List.getD]

theorem add_local_ok (st : SymTab) (cf : Symbol) (nm : String) (ty : Ty)
    (st' : SymTab) (cf' : Symbol)
    (h : add_local st cf nm ty = .ok (st', cf')) :
    (∃ l, st'.syms = st.syms ++ [l] ∧ l.name = nm) ∧
    cf'.name = cf.name ∧ cf'.kind = cf.kind ∧
    st'.first_sym = st.first_sym ∧ st'.scope_depth = st.scope_depth := by
  simp only [add_local] at h
  split_ifs at h
  obtain ⟨st1, ha, hy⟩ := except_map_ok_inv _ _ _ h
  obtain ⟨hsy, hfs, hsd⟩ := add_sym_ok st _ st1 ha
  injection hy with h3 h4
  rw [← h3, ← h4]
  exact ⟨⟨_, hsy, rfl⟩, rfl, rfl, hfs, hsd⟩

theorem p_param_ok (st : SymTab) (cf : Symbol) (pn : String) (pt : Ty)
    (st' : SymTab) (cf' : Symbol)
    (h : p_param st cf pn pt = .ok (st', cf')) :
    (∃ l, st'.syms = st.syms ++ [l] ∧ l.name = pn) ∧
    cf'.name = cf.name ∧ cf'.kind = cf.kind ∧
    st'.first_sym = st.first_sym ∧ st'.scope_depth = st.scope_depth := by
  rw [p_param] at h
  split_ifs at h
  obtain ⟨hl, hn, hk, hf, hd⟩ := add_local_ok _ _ _ _ _ _ h
  exact ⟨hl, hn, hk, hf, hd⟩

theorem fold_params_ok (params : List (String × Ty)) :
    ∀ st cf st2 cf2,
      params.foldlM (fun (p : SymTab × Symbol) pr => p_param p.1 p.2 pr.1 pr.2)
        (st, cf) = .ok (st2, cf2) →
      (∃ extra, st2.syms = st.syms ++ extra ∧
        (∀ s ∈ extra, ∃ pr ∈ params, s.name = pr.1)) ∧
      cf2.name = cf.name ∧ cf2.kind = cf.kind ∧
      st2.first_sym = st.first_sym ∧ st2.scope_depth = st.scope_depth := by
  induction params with
  | nil =>
    intro st cf st2 cf2 h
    simp only [List.foldlM_nil] at h
    injection h with h2
    injection h2 with h3 h4
    rw [← h3, ← h4]
    exact ⟨⟨[], by simp, by simp⟩, rfl, rfl, rfl, rfl⟩
  | cons pr rest ih =>
    intro st cf st2 cf2 h
    simp only [List.foldlM_cons, Bind.bind, Except.bind] at h
    cases hp : p_param st cf pr.1 pr.2 with
    | error m => rw [hp] at h; simp at h
    | ok p1 =>
      rw [hp] at h
      obtain ⟨st1, cf1⟩ := p1
      obtain ⟨⟨l, hsy, hln⟩, hn1, hk1, hf1, hd1⟩ := p_param_ok _ _ _ _ _ _ hp
      obtain ⟨⟨extra, hsy2, hnames⟩, hn2, hk2, hf2, hd2⟩ := ih st1 cf1 st2 cf2 h
      refine ⟨⟨[l] ++ extra, ?_, ?_⟩, ?_, ?_, ?_, ?_⟩
      · rw [hsy2, hsy]; simp
      · intro s hs
        rcases List.mem_append.mp hs with hs1 | hs2
        · rcases List.mem_singleton.mp hs1 with rfl
          exact ⟨pr, by simp, hln⟩
        · obtain ⟨pr', hpr', hsn⟩ := hnames s hs2
          exact ⟨pr', by simp [hpr'], hsn⟩
      · rw [hn2, hn1]
      · rw [hk2, hk1]
      · rw [hf2, hf1]
      · rw [hd2, hd1]

theorem find_sym_within_none (st : SymTab) (n : String) (d : Nat)
    (h : ∀ s ∈ st.syms, s.name ≠ n) : find_sym_within st n d = none := by
  rw [find_sym_within]
  apply List.find?_eq_none.mpr
  intro x hx
  have hmem : x ∈ st.syms :=
    List.mem_of_mem_drop (List.mem_reverse.mp hx)
  simp [h x hmem]

theorem find_sym_none_names (st : SymTab) (n : String)
    (h0 : st.first_sym.getD 0 0 = 0) (h : find_sym st n = none) :
    ∀ s ∈ st.syms, s.name ≠ n := by
  rw [find_sym, find_sym_within, h0, List.drop_zero] at h
  intro s hs heq
  have := List.find?_eq_none.mp h s (List.mem_reverse.mpr hs)
  simp [heq] at this

/-- A successful `add_func` on a name absent from the whole table
appends the function symbol. -/
theorem add_func_fresh (st : SymTab) (f : Symbol) (st' : SymTab)
    (h : add_func st f = .ok st')
    (hnone : ∀ s ∈ st.syms, s.name ≠ f.name) :
    st'.syms = st.syms ++ [f] ∧ st'.first_sym = st.first_sym := by
  have hf : find_sym st f.name = none := by
    rw [find_sym]
    exact find_sym_within_none st _ 0 hnone
  rw [add_func, hf] at h
  obtain ⟨a, b, _⟩ := add_sym_ok st f st' h
  exact ⟨a, b⟩

/-- C10: compiling a non-extern defined function adds its symbol —
inside the function's own scope — *before* the body is parsed
(main.c:1412-1413 run `add_func` ahead of `p_stmt`): after the prelude,
looking the name up finds the function symbol, of kind `Sym_Func`
(which is exactly what the call branch of `p_expr` requires of a
callee), with the declared return type and `defined` set.  Recursion
therefore needs no separate forward declaration. -/
theorem C10_recursion_resolves (st : SymTab) (name : String)
    (params : List (String × Ty)) (variadic : Bool) (ret : Ty)
    (st3 : SymTab) (cf : Symbol)
    (h0 : st.first_sym.getD 0 0 = 0)
    (h1 : find_sym st name = none)
    (h2 : ∀ pr ∈ params, pr.1 ≠ name)
    (h : p_decl_func_prelude st name false params variadic ret = .ok (st3, cf)) :
    find_sym st3 name = some cf ∧ cf.kind = SymKind.func ∧ cf.name = name ∧
    cf.type = ret ∧ cf.defined = true := by
  simp only [p_decl_func_prelude] at h
  obtain ⟨st1, he, h⟩ := except_bind_ok_inv _ _ _ h
  obtain ⟨p2, hfold, h⟩ := except_bind_ok_inv _ _ _ h
  obtain ⟨st2, cf1⟩ := p2
  dsimp only at h
  obtain ⟨u, _, h⟩ := except_bind_ok_inv _ _ _ h
  obtain ⟨st3', hadd, h⟩ := except_bind_ok_inv _ _ _ h
  -- the final pure fixes st3 and cf
  have h5 : st3' = st3 ∧
      ({ cf1 with is_variadic := variadic, type := ret, defined := true }
        : Symbol) = cf := by
    simp only [pure, Except.pure] at h
    injection h with h3
    exact ⟨congrArg Prod.fst h3, congrArg Prod.snd h3⟩
  obtain ⟨rfl, rfl⟩ := h5
  -- facts about the state after enter_scope
  have hst1 : st1.syms = st.syms ∧ st1.first_sym.getD 0 0 = 0 := by
    rw [enter_scope] at he
    split_ifs at he
    injection he with he2
    rw [← he2]
    exact ⟨rfl, by rw [getD_zero_set_succ]; exact h0⟩
  -- facts about the state after the parameter fold
  obtain ⟨⟨extra, hsy2, hnames⟩, hn1, hk1, hff1, _⟩ :=
    fold_params_ok params _ _ _ _ hfold
  have hn1' : cf1.name = name := by rw [hn1]; rfl
  have hk1' : cf1.kind = SymKind.func := by rw [hk1]; rfl
  have hnames2 : ∀ s ∈ st2.syms, s.name ≠ name := by
    intro s hs
    rw [hsy2, hst1.1] at hs
    rcases List.mem_append.mp hs with hs1 | hs2
    · exact find_sym_none_names st name h0 h1 s hs1
    · obtain ⟨pr', hpr', hsn⟩ := hnames s hs2
      rw [hsn]
      exact h2 pr' hpr'
  -- the add_func that ran before the body appends the function symbol
  have hnames3 : ∀ s ∈ st2.syms, s.name ≠ cf1.name := by
    intro s hs
    rw [hn1']
    exact hnames2 s hs
  obtain ⟨hsy3, hfs3⟩ := add_func_fresh st2 _ _ hadd hnames3
  refine ⟨?_, hk1', hn1', rfl, rfl⟩
  -- the name now resolves to the function symbol just added
  have hgd : st2.first_sym.getD 0 0 = 0 := by rw [hff1]; exact hst1.2
  rw [find_sym, find_sym_within, hfs3, hsy3, hgd, List.drop_zero,
      List.reverse_append]
  simp [List.find?, hn1']

/-- C10 witness: compiling `func f(a: Int): Int { ... }` against an
empty table: when the body starts, `f` resolves to the just-added
function symbol. -/
theorem C10_witness :
    find_sym
      ⟨[⟨SymKind.lcl, "a", false, Ty.int 8, 8, 0, [], [], false, 0, false⟩,
        ⟨SymKind.func, "f", false, Ty.int 8, 0, 0, ["a"], [Ty.int 8],
         false, 8, true⟩],
       (List.replicate 17 0).set 1 0, 1⟩ "f"
      = some ⟨SymKind.func, "f", false, Ty.int 8, 0, 0, ["a"], [Ty.int 8],
              false, 8, true⟩ ∧
    (⟨SymKind.func, "f", false, Ty.int 8, 0, 0, ["a"], [Ty.int 8],
      false, 8, true⟩ : Symbol).kind = SymKind.func ∧
    (⟨SymKind.func, "f", false, Ty.int 8, 0, 0, ["a"], [Ty.int 8],
      false, 8, true⟩ : Symbol).name = "f" ∧
    (⟨SymKind.func, "f", false, Ty.int 8, 0, 0, ["a"], [Ty.int 8],
      false, 8, true⟩ : Symbol).type = Ty.int 8 ∧
    (⟨SymKind.func, "f", false, Ty.int 8, 0, 0, ["a"], [Ty.int 8],
      false, 8, true⟩ : Symbol).defined = true :=
  C10_recursion_resolves init_tab "f" [("a", Ty.int 8)] false (Ty.int 8)
    _ _ rfl rfl (by simp) rfl

/-! ## C9: constant symbols are Int64 literals at every use -/

/-- C9: `add_const` — used for both `const` declarations and `enum`
members — always stores type `Int(8)` (Int64) and the folded value,
regardless of the defining expression; a use site materializes the
symbol as an `<int>` literal node of that type carrying the stored
value (main.c:1135-1137). -/
theorem C9_const_symbols (n : String) (v : Int) (st : SymTab) :
    (const_sym n v).type = Ty.int 8 ∧ (const_sym n v).value = v ∧
    (const_sym n v).kind = SymKind.cnst ∧
    add_const st n v = add_sym st (const_sym n v) ∧
    const_use (const_sym n v) = Expr.mk "<int>" (Ty.int 8) v "" none [] 0 :=
  ⟨rfl, rfl, rfl, rfl, rfl⟩

end Cog
